import Mathlib

set_option linter.unusedVariables false

/-! Shallow embedding of the Button-Men dice-duel server (final revision of
the server source).  Randomness is modelled by an explicit stream of rational
draws: the expression Math.ceil(Math.random() * size) is embedded with
Math.random() = rnd.1 / rnd.2 where 0 <= rnd.1 < rnd.2. -/

/-- A die as produced by rollDie in the source: a face count and a rolled value. -/
structure Die where
  size : Nat
  value : Nat
deriving DecidableEq

/-- Game record stored in the games registry by the source: two player slots
(null modelled as none), the index of the current player, the two dice pools
and the two captured-size lists. -/
structure Game where
  players : Option String × Option String
  currentPlayer : Nat
  dice : List Die × List Die
  captured : List Nat × List Nat
deriving DecidableEq

/-- rollDie from the source: value = Math.ceil(random * size) where the random
draw is rnd.1 / rnd.2 with 0 <= rnd.1 < rnd.2; the natural-number form of the
ceiling of a / b is (a + b - 1) / b. -/
def rollDie (rnd : Nat × Nat) (size : Nat) : Die :=
  { size := size, value := (rnd.1 * size + rnd.2 - 1) / rnd.2 }

/-- Rolling a list of sizes, one random draw per die starting at stream
position k; models mapping rollDie over the starting sizes. -/
def rollAll (rnds : Nat → Nat × Nat) : List Nat → Nat → List Die
  | [], _ => []
  | s :: rest, k => rollDie (rnds k) s :: rollAll rnds rest (k + 1)

/-- Starting sizes used by createGame and joinGame in the source. -/
def startingSizes : List Nat := [4, 6, 8, 10, 20]

/-- createGame from the source: creator in slot 0, empty second slot, creator
to move (currentPlayer 0), five rolled dice for the creator and an empty pool
for the missing opponent, both captured lists empty. -/
def createGame (rnds : Nat → Nat × Nat) (playerId : String) : Game :=
  { players := (some playerId, none)
    currentPlayer := 0
    dice := (rollAll rnds startingSizes 0, [])
    captured := ([], []) }

/-- Array indexOf over the two player slots: 0, 1 or -1. -/
def indexOfPlayer (ps : Option String × Option String) (pid : String) : Int :=
  if ps.1 = some pid then 0 else if ps.2 = some pid then 1 else -1

/-- The slot occupied at a given index (none when the index is not 0 or 1). -/
def slotAt (ps : Option String × Option String) (i : Nat) : Option String :=
  if i = 0 then ps.1 else if i = 1 then ps.2 else none

/-- Two-element-array indexing, for indices the source already reduces mod 2. -/
def pick2 {α : Type} (p : α × α) (i : Nat) : α :=
  if i % 2 = 0 then p.1 else p.2

/-- In-place update of one of the two array entries. -/
def set2 {α : Type} (p : α × α) (i : Nat) (a : α) : α × α :=
  if i % 2 = 0 then (a, p.2) else (p.1, a)

/-- The reduce in performAttack: acc + attackerDice[index].value over the
selected indices; an out-of-range index makes the source throw a TypeError,
modelled as none. -/
def sumValues (dice : List Die) : List Nat → Option Nat
  | [] => some 0
  | i :: rest =>
    match dice[i]? with
    | some d => (sumValues dice rest).map (fun s => d.value + s)
    | none => none

/-- The value of the die at an index, 0 when the index is out of range. -/
def dieValueAt (dice : List Die) (i : Nat) : Nat :=
  (Option.map Die.value dice[i]?).getD 0

/-- The forEach reroll in the success branch of performAttack: each selected
index is replaced by a fresh roll of the die currently at that index,
consuming one draw per list position.  The none branch is unreachable from
performAttack because the attack-value reduce already dereferenced every
selected index. -/
def rerollDice (rnds : Nat → Nat × Nat) : List Die → List Nat → Nat → List Die
  | dice, [], _ => dice
  | dice, i :: rest, k =>
    match dice[i]? with
    | some d => rerollDice rnds (dice.set i (rollDie (rnds k) d.size)) rest (k + 1)
    | none => rerollDice rnds dice rest (k + 1)

/-- The success test of performAttack: one selected index is a power attack
(attack value at least the defender value), any other count of indices is a
skill attack (sum exactly equal to the defender value). -/
def attackSuccessCond (attackerDieIndices : List Nat) (attackValue : Nat)
    (defenderDie : Die) : Bool :=
  if attackerDieIndices.length = 1 then decide (defenderDie.value ≤ attackValue)
  else decide (attackValue = defenderDie.value)

inductive AttackOutcome where
  | gameNotFound
  | notYourTurn
  | attackSuccessful
  | attackFailed
deriving DecidableEq

/-- The mutations of the success branch of performAttack: push the captured
size, splice the defender die out, reroll every selected attacker die, switch
the current player.  The turn guard has already forced currentPlayer to be 0
or 1, so indexing the captured pair with currentPlayer is exact. -/
def applyAttackSuccess (rnds : Nat → Nat × Nat) (game : Game)
    (attackerDieIndices : List Nat) (defenderDieIndex : Nat) (defenderDie : Die) : Game :=
  { game with
    captured := set2 game.captured game.currentPlayer
      (pick2 game.captured game.currentPlayer ++ [defenderDie.size])
    dice := set2 (set2 game.dice (game.currentPlayer % 2)
        (rerollDice rnds (pick2 game.dice (game.currentPlayer % 2)) attackerDieIndices 0))
      ((game.currentPlayer + 1) % 2)
      ((pick2 game.dice ((game.currentPlayer + 1) % 2)).eraseIdx defenderDieIndex)
    currentPlayer := (game.currentPlayer + 1) % 2 }

/-- performAttack from the source, for a game already looked up: the turn
guard, the shared attack-value reduce, the power or skill comparison against
the selected defender die, and the success mutations; the return value none
models an uncaught TypeError from reading past the end of a pool. -/
def performAttack (rnds : Nat → Nat × Nat) (game : Game) (playerId : String)
    (attackerDieIndices : List Nat) (defenderDieIndex : Nat) :
    Option (AttackOutcome × Game) :=
  if (game.currentPlayer : Int) ≠ indexOfPlayer game.players playerId then
    some (.notYourTurn, game)
  else
    match sumValues (pick2 game.dice (game.currentPlayer % 2)) attackerDieIndices,
        (pick2 game.dice ((game.currentPlayer + 1) % 2))[defenderDieIndex]? with
    | some attackValue, some defenderDie =>
      if attackSuccessCond attackerDieIndices attackValue defenderDie then
        some (.attackSuccessful,
          applyAttackSuccess rnds game attackerDieIndices defenderDieIndex defenderDie)
      else
        some (.attackFailed, game)
    | _, _ => none

/-- The registry-level attack action from the source: the games[gameId]
lookup, the not-found early return, and the in-place write-back of the
mutated game. -/
def attackAction (rnds : Nat → Nat × Nat) (reg : String → Option Game)
    (gameId playerId : String) (attackerDieIndices : List Nat)
    (defenderDieIndex : Nat) :
    Option (AttackOutcome × (String → Option Game)) :=
  match reg gameId with
  | none => some (.gameNotFound, reg)
  | some game =>
    (performAttack rnds game playerId attackerDieIndices defenderDieIndex).map
      (fun r => (r.1, fun id => if id = gameId then some r.2 else reg id))

/-- Modelled from the spec: the derivation of isPassAllowed in section 4.4,
missing from the server source (App.jsx posts pass to an external web4
contract).  A legal attack is a power attack by one die whose value is at
least some defender value, or a skill attack by a subset of at least two dice
whose values sum exactly to some defender value. -/
def existsLegalAttack (attackerDice defenderDice : List Die) : Bool :=
  defenderDice.any fun d =>
    (attackerDice.any fun a => decide (d.value ≤ a.value)) ||
    (attackerDice.sublists.any fun s =>
      decide (2 ≤ s.length) && decide ((s.map Die.value).sum = d.value))

inductive PassOutcome where
  | notYourTurn
  | passNotAllowed
  | passed
deriving DecidableEq

/-- Modelled from the spec: the pass action of sections 4.3 and 4.4, missing
from the server source.  The caller must be the current player, passing is
legal only when no legal attack exists, and a legal pass only toggles the
current player. -/
def performPass (game : Game) (playerId : String) : PassOutcome × Game :=
  if (game.currentPlayer : Int) ≠ indexOfPlayer game.players playerId then
    (.notYourTurn, game)
  else if existsLegalAttack (pick2 game.dice (game.currentPlayer % 2))
      (pick2 game.dice ((game.currentPlayer + 1) % 2)) then
    (.passNotAllowed, game)
  else
    (.passed, { game with currentPlayer := (game.currentPlayer + 1) % 2 })

/-- Fixed random stream for the concrete witnesses: every draw is 1 / 2. -/
def rnds0 : Nat → Nat × Nat := fun _ => (1, 2)

/-- Concrete two-player game used by the C1 witness. -/
def gameC1 : Game :=
  { players := (some "ann", some "bob"), currentPlayer := 0,
    dice := ([{ size := 6, value := 4 }], [{ size := 4, value := 2 }]),
    captured := ([], []) }

/-- Concrete two-player game used by the C2 witness. -/
def gameC2 : Game :=
  { players := (some "ann", some "bob"), currentPlayer := 0,
    dice := ([{ size := 6, value := 5 }, { size := 4, value := 2 }],
      [{ size := 8, value := 7 }]),
    captured := ([], []) }

/-- Concrete two-player game used by the C3 witness. -/
def gameC3 : Game :=
  { players := (some "ann", some "bob"), currentPlayer := 0,
    dice := ([{ size := 6, value := 5 }, { size := 4, value := 2 }],
      [{ size := 8, value := 7 }]),
    captured := ([], []) }

/-- Concrete result game of the C3 witness attack. -/
def gameC3After : Game :=
  { players := (some "ann", some "bob"), currentPlayer := 1,
    dice := ([{ size := 6, value := 3 }, { size := 4, value := 2 }], []),
    captured := ([8], []) }

/-- Concrete game for C4: the defender pool holds a single die, so a
successful attack empties it. -/
def gameC4 : Game :=
  { players := (some "ann", some "bob"), currentPlayer := 0,
    dice := ([{ size := 6, value := 6 }], [{ size := 4, value := 1 }]),
    captured := ([], []) }

/-- Result game of the C4 attack as the source computes it. -/
def gameC4After : Game :=
  { players := (some "ann", some "bob"), currentPlayer := 1,
    dice := ([{ size := 6, value := 3 }], []),
    captured := ([4], []) }

/-- Concrete game used by the C7 witness: it is the turn of the player in
slot 0, and the caller is an outsider. -/
def gameC7 : Game :=
  { players := (some "ann", some "bob"), currentPlayer := 0,
    dice := ([{ size := 6, value := 4 }], [{ size := 4, value := 2 }]),
    captured := ([], []) }

/-- Concrete game for the failed-attack half of the C5 witness. -/
def gameC5fail : Game :=
  { players := (some "ann", some "bob"), currentPlayer := 0,
    dice := ([{ size := 6, value := 1 }], [{ size := 4, value := 3 }]),
    captured := ([], []) }

/-- Concrete one-game registry for the C5 witness. -/
def regC5 : String → Option Game :=
  fun id => if id = "g1" then some gameC5fail else none

/-- Registry produced by the failed C5 witness attack: the write-back stores
the unchanged game. -/
def regC5After : String → Option Game :=
  fun id => if id = "g1" then some gameC5fail else regC5 id

/-- Concrete game for the pass half of the C5 witness: the lone attacker die
is smaller than every defender die, so no legal attack exists. -/
def gameC5pass : Game :=
  { players := (some "pam", some "quinn"), currentPlayer := 0,
    dice := ([{ size := 6, value := 1 }], [{ size := 4, value := 2 }]),
    captured := ([], []) }

/-- The C5 pass witness result: only the current player index changes. -/
def gameC5passAfter : Game :=
  { players := (some "pam", some "quinn"), currentPlayer := 1,
    dice := ([{ size := 6, value := 1 }], [{ size := 4, value := 2 }]),
    captured := ([], []) }

/-- Concrete game used for C6: one attacker die of value 3, one defender die
of value 6. -/
def gameC6 : Game :=
  { players := (some "ann", some "bob"), currentPlayer := 0,
    dice := ([{ size := 6, value := 3 }], [{ size := 8, value := 6 }]),
    captured := ([], []) }

/-- Result game of the duplicate-index attack on gameC6: the defender die is
captured and the single attacker die is rerolled (twice, once per duplicated
index). -/
def gameC6After : Game :=
  { players := (some "ann", some "bob"), currentPlayer := 1,
    dice := ([{ size := 6, value := 3 }], []),
    captured := ([8], []) }

/-- Concrete game for the C8 witness with no legal attack: the lone attacker
die value 1 beats no defender value and no two-dice subset exists. -/
def gameC8 : Game :=
  { players := (some "pam", some "quinn"), currentPlayer := 0,
    dice := ([{ size := 6, value := 1 }], [{ size := 4, value := 2 }]),
    captured := ([], []) }

/-- Result of the legal pass on gameC8. -/
def gameC8After : Game :=
  { players := (some "pam", some "quinn"), currentPlayer := 1,
    dice := ([{ size := 6, value := 1 }], [{ size := 4, value := 2 }]),
    captured := ([], []) }

/-- Concrete game for the C8 witness with a legal attack available (3 beats 2). -/
def gameC8b : Game :=
  { players := (some "pam", some "quinn"), currentPlayer := 0,
    dice := ([{ size := 6, value := 3 }], [{ size := 4, value := 2 }]),
    captured := ([], []) }

lemma pick2_set2_of_eq {α : Type} (p : α × α) (i j : Nat) (a : α)
    (h : i % 2 = j % 2) : pick2 (set2 p i a) j = a := by
  unfold pick2 set2
  rcases Nat.mod_two_eq_zero_or_one i with hi | hi <;> simp [hi, ← h, hi]

lemma pick2_set2_of_ne {α : Type} (p : α × α) (i j : Nat) (a : α)
    (h : i % 2 ≠ j % 2) : pick2 (set2 p i a) j = pick2 p j := by
  unfold pick2 set2
  rcases Nat.mod_two_eq_zero_or_one i with hi | hi <;>
    rcases Nat.mod_two_eq_zero_or_one j with hj | hj <;>
    simp [hi, hj] at h ⊢

lemma succ_mod_two_ne (c : Nat) : (c + 1) % 2 ≠ c % 2 := by omega

lemma rollAll_length (rnds : Nat → Nat × Nat) :
    ∀ (sizes : List Nat) (k : Nat), (rollAll rnds sizes k).length = sizes.length := by
  intro sizes
  induction sizes with
  | nil => intro k; rfl
  | cons s rest ih => intro k; simp [rollAll, ih]

lemma sumValues_some_lt (dice : List Die) :
    ∀ (idxs : List Nat) (v : Nat), sumValues dice idxs = some v →
      ∀ j ∈ idxs, j < dice.length := by
  intro idxs
  induction idxs with
  | nil => simp
  | cons i rest ih =>
    intro v h j hj
    unfold sumValues at h
    cases hdi : dice[i]? with
    | none => rw [hdi] at h; cases h
    | some d =>
      rw [hdi] at h
      cases hs : sumValues dice rest with
      | none => rw [hs] at h; cases h
      | some w =>
        rcases List.mem_cons.mp hj with rfl | hmem
        · exact (List.getElem?_eq_some.mp hdi).1
        · exact ih w hs j hmem

lemma sumValues_eq_sum (dice : List Die) :
    ∀ (idxs : List Nat), (∀ j ∈ idxs, j < dice.length) →
      sumValues dice idxs = some ((idxs.map (dieValueAt dice)).sum) := by
  intro idxs
  induction idxs with
  | nil => intro _; rfl
  | cons i rest ih =>
    intro h
    have hi : i < dice.length := h i (List.mem_cons_self i rest)
    have hdi : dice[i]? = some dice[i] := List.getElem?_eq_getElem hi
    unfold sumValues
    rw [hdi, ih (fun j hj => h j (List.mem_cons_of_mem i hj))]
    simp [dieValueAt, hdi]

lemma sumValues_none (dice : List Die) :
    ∀ (idxs : List Nat), (∃ i ∈ idxs, dice.length ≤ i) →
      sumValues dice idxs = none := by
  intro idxs
  induction idxs with
  | nil => simp
  | cons i rest ih =>
    intro h
    unfold sumValues
    rcases h with ⟨j, hj, hlen⟩
    rcases List.mem_cons.mp hj with rfl | hmem
    · rw [List.getElem?_eq_none hlen]
    · cases hdi : dice[i]? with
      | none => rfl
      | some d => rw [ih ⟨j, hmem, hlen⟩]; rfl

lemma rerollDice_length (rnds : Nat → Nat × Nat) :
    ∀ (idxs : List Nat) (dice : List Die) (k : Nat),
      (rerollDice rnds dice idxs k).length = dice.length := by
  intro idxs
  induction idxs with
  | nil => intro dice k; rfl
  | cons i rest ih =>
    intro dice k
    unfold rerollDice
    cases hdi : dice[i]? with
    | none => exact ih dice (k + 1)
    | some d => rw [ih]; exact List.length_set dice i _

lemma rerollDice_not_mem (rnds : Nat → Nat × Nat) :
    ∀ (idxs : List Nat) (dice : List Die) (k j : Nat), j ∉ idxs →
      (rerollDice rnds dice idxs k)[j]? = dice[j]? := by
  intro idxs
  induction idxs with
  | nil => intro dice k j _; rfl
  | cons i rest ih =>
    intro dice k j hj
    have hji : i ≠ j := fun h => hj (h ▸ List.mem_cons_self i rest)
    have hjr : j ∉ rest := fun h => hj (List.mem_cons_of_mem i h)
    unfold rerollDice
    cases hdi : dice[i]? with
    | none => exact ih dice (k + 1) j hjr
    | some d => rw [ih _ (k + 1) j hjr, List.getElem?_set_ne hji]

lemma rerollDice_size (rnds : Nat → Nat × Nat) :
    ∀ (idxs : List Nat) (dice : List Die) (k j : Nat),
      ((rerollDice rnds dice idxs k)[j]?).map Die.size = (dice[j]?).map Die.size := by
  intro idxs
  induction idxs with
  | nil => intro dice k j; rfl
  | cons i rest ih =>
    intro dice k j
    unfold rerollDice
    cases hdi : dice[i]? with
    | none => exact ih dice (k + 1) j
    | some d =>
      rw [ih]
      by_cases hij : i = j
      · subst hij
        have hi : i < dice.length := (List.getElem?_eq_some.mp hdi).1
        rw [List.getElem?_set_eq_of_lt _ hi, hdi]
        rfl
      · rw [List.getElem?_set_ne hij]

lemma rerollDice_mem (rnds : Nat → Nat × Nat) :
    ∀ (idxs : List Nat) (dice : List Die) (k j : Nat), j ∈ idxs → j < dice.length →
      ∃ k' d, dice[j]? = some d ∧
        (rerollDice rnds dice idxs k)[j]? = some (rollDie (rnds k') d.size) := by
  intro idxs
  induction idxs with
  | nil => simp
  | cons i rest ih =>
    intro dice k j hj hlen
    unfold rerollDice
    rcases List.mem_cons.mp hj with rfl | hmem
    · have hdj : dice[j]? = some dice[j] := List.getElem?_eq_getElem hlen
      rw [hdj]
      set dice' := dice.set j (rollDie (rnds k) dice[j].size) with hdice'
      have hlen' : j < dice'.length := by
        rw [hdice', List.length_set]; exact hlen
      by_cases hjr : j ∈ rest
      · rcases ih dice' (k + 1) j hjr hlen' with ⟨k', d', hd', hres⟩
        have hd'eq : dice'[j]? = some (rollDie (rnds k) dice[j].size) :=
          List.getElem?_set_eq_of_lt _ hlen
        rw [hd'eq] at hd'
        have : d' = rollDie (rnds k) dice[j].size := by
          injection hd' with h; exact h.symm
        subst this
        exact ⟨k', dice[j], rfl, hres⟩
      · refine ⟨k, dice[j], rfl, ?_⟩
        rw [rerollDice_not_mem rnds rest dice' (k + 1) j hjr]
        exact List.getElem?_set_eq_of_lt _ hlen
    · cases hdi : dice[i]? with
      | none => exact ih dice (k + 1) j hmem hlen
      | some d =>
        have hlen' : j < (dice.set i (rollDie (rnds k) d.size)).length := by
          rw [List.length_set]; exact hlen
        rcases ih _ (k + 1) j hmem hlen' with ⟨k', d', hd', hres⟩
        by_cases hij : i = j
        · subst hij
          have hd'eq : (dice.set i (rollDie (rnds k) d.size))[i]? =
              some (rollDie (rnds k) d.size) :=
            List.getElem?_set_eq_of_lt _ ((List.getElem?_eq_some.mp hdi).1)
          rw [hd'eq] at hd'
          have : d' = rollDie (rnds k) d.size := by injection hd' with h; exact h.symm
          subst this
          exact ⟨k', d, hdi, hres⟩
        · rw [List.getElem?_set_ne hij] at hd'
          exact ⟨k', d', hd', hres⟩

lemma performAttack_resolve (rnds : Nat → Nat × Nat) (g : Game) (pid : String)
    (idxs : List Nat) (dIdx : Nat) (av : Nat) (dDie : Die)
    (hturn : indexOfPlayer g.players pid = (g.currentPlayer : Int))
    (hs : sumValues (pick2 g.dice (g.currentPlayer % 2)) idxs = some av)
    (hd : (pick2 g.dice ((g.currentPlayer + 1) % 2))[dIdx]? = some dDie) :
    performAttack rnds g pid idxs dIdx =
      if attackSuccessCond idxs av dDie then
        some (.attackSuccessful, applyAttackSuccess rnds g idxs dIdx dDie)
      else some (.attackFailed, g) := by
  unfold performAttack
  rw [if_neg (fun hne => hne hturn.symm), hs, hd]

lemma performAttack_not_success (rnds : Nat → Nat × Nat) (g : Game) (pid : String)
    (idxs : List Nat) (dIdx : Nat) (out : AttackOutcome) (g' : Game)
    (h : performAttack rnds g pid idxs dIdx = some (out, g'))
    (hout : out ≠ AttackOutcome.attackSuccessful) : g' = g := by
  unfold performAttack at h
  split at h
  · injection h with h'
    injection h' with h1 h2
    exact h2.symm
  · split at h
    · split at h
      · injection h with h'
        injection h' with h1 h2
        exact absurd h1.symm hout
      · injection h with h'
        injection h' with h1 h2
        exact h2.symm
    · cases h

lemma performAttack_success_inv (rnds : Nat → Nat × Nat) (g : Game) (pid : String)
    (idxs : List Nat) (dIdx : Nat) (g' : Game)
    (h : performAttack rnds g pid idxs dIdx = some (AttackOutcome.attackSuccessful, g')) :
    ∃ av dDie, sumValues (pick2 g.dice (g.currentPlayer % 2)) idxs = some av ∧
      (pick2 g.dice ((g.currentPlayer + 1) % 2))[dIdx]? = some dDie ∧
      attackSuccessCond idxs av dDie = true ∧
      g' = applyAttackSuccess rnds g idxs dIdx dDie := by
  unfold performAttack at h
  split at h
  · injection h with h'
    injection h' with h1 h2
    cases h1
  · rename_i hguard
    split at h
    · rename_i av dDie hs hd
      split at h
      · rename_i hcond
        injection h with h'
        injection h' with h1 h2
        exact ⟨av, dDie, hs, hd, hcond, h2.symm⟩
      · injection h with h'
        injection h' with h1 h2
        cases h1
    · cases h

/-- C1: for a game whose current player selects exactly one in-range attacker
die index against an in-range defender die index, the power attack succeeds
exactly when the attacker value is at least the defender value; on success
exactly one defender die is removed; when the attacker value is strictly
smaller the attack fails and the game state is unchanged. -/
theorem c1_power_attack (rnds : Nat → Nat × Nat) (g : Game) (pid : String) (i dIdx : Nat)
    (hturn : indexOfPlayer g.players pid = (g.currentPlayer : Int))
    (hi : i < (pick2 g.dice (g.currentPlayer % 2)).length)
    (hd : dIdx < (pick2 g.dice ((g.currentPlayer + 1) % 2)).length) :
    ∃ out g', performAttack rnds g pid [i] dIdx = some (out, g') ∧
      (out = AttackOutcome.attackSuccessful ↔
        dieValueAt (pick2 g.dice ((g.currentPlayer + 1) % 2)) dIdx ≤
          dieValueAt (pick2 g.dice (g.currentPlayer % 2)) i) ∧
      (out = AttackOutcome.attackSuccessful →
        pick2 g'.dice ((g.currentPlayer + 1) % 2) =
          (pick2 g.dice ((g.currentPlayer + 1) % 2)).eraseIdx dIdx ∧
        (pick2 g'.dice ((g.currentPlayer + 1) % 2)).length + 1 =
          (pick2 g.dice ((g.currentPlayer + 1) % 2)).length) ∧
      (dieValueAt (pick2 g.dice (g.currentPlayer % 2)) i <
          dieValueAt (pick2 g.dice ((g.currentPlayer + 1) % 2)) dIdx →
        out = AttackOutcome.attackFailed ∧ g' = g) := by
  have hin : ∀ j ∈ [i], j < (pick2 g.dice (g.currentPlayer % 2)).length := by
    intro j hj; rcases List.mem_singleton.mp hj with rfl; exact hi
  have hs := sumValues_eq_sum (pick2 g.dice (g.currentPlayer % 2)) [i] hin
  simp only [List.map_cons, List.map_nil, List.sum_cons, List.sum_nil, Nat.add_zero] at hs
  have hd' : (pick2 g.dice ((g.currentPlayer + 1) % 2))[dIdx]? =
      some (pick2 g.dice ((g.currentPlayer + 1) % 2))[dIdx] :=
    List.getElem?_eq_getElem hd
  have hdval : dieValueAt (pick2 g.dice ((g.currentPlayer + 1) % 2)) dIdx =
      (pick2 g.dice ((g.currentPlayer + 1) % 2))[dIdx].value := by
    simp [dieValueAt, hd']
  have hres := performAttack_resolve rnds g pid [i] dIdx _ _ hturn hs hd'
  have hcond : attackSuccessCond [i] (dieValueAt (pick2 g.dice (g.currentPlayer % 2)) i)
      (pick2 g.dice ((g.currentPlayer + 1) % 2))[dIdx] =
      decide ((pick2 g.dice ((g.currentPlayer + 1) % 2))[dIdx].value ≤
        dieValueAt (pick2 g.dice (g.currentPlayer % 2)) i) := by
    unfold attackSuccessCond; rfl
  rw [hcond] at hres
  by_cases hle : (pick2 g.dice ((g.currentPlayer + 1) % 2))[dIdx].value ≤
      dieValueAt (pick2 g.dice (g.currentPlayer % 2)) i
  · rw [if_pos (by simpa using hle)] at hres
    refine ⟨AttackOutcome.attackSuccessful, _, hres, ?_, ?_, ?_⟩
    · rw [hdval]; exact ⟨fun _ => hle, fun _ => rfl⟩
    · intro _
      constructor
      · show pick2 (applyAttackSuccess rnds g [i] dIdx _).dice ((g.currentPlayer + 1) % 2) = _
        unfold applyAttackSuccess
        exact pick2_set2_of_eq _ _ _ _ rfl
      · show (pick2 (applyAttackSuccess rnds g [i] dIdx _).dice ((g.currentPlayer + 1) % 2)).length + 1 = _
        unfold applyAttackSuccess
        rw [pick2_set2_of_eq _ _ _ _ rfl]
        exact List.length_eraseIdx_add_one hd
    · intro hlt
      rw [hdval] at hlt
      exact absurd hle (Nat.not_le_of_lt hlt)
  · rw [if_neg (by simpa using hle)] at hres
    refine ⟨AttackOutcome.attackFailed, g, hres, ?_, ?_, ?_⟩
    · rw [hdval]
      exact ⟨fun h => AttackOutcome.noConfusion h, fun h => absurd h hle⟩
    · intro h; cases h
    · intro _; exact ⟨rfl, rfl⟩

/-- Witness for C1 at a concrete power attack. -/
theorem c1_power_attack_witness :
    ∃ out g', performAttack rnds0 gameC1 "ann" [0] 0 = some (out, g') ∧
      (out = AttackOutcome.attackSuccessful ↔
        dieValueAt (pick2 gameC1.dice ((gameC1.currentPlayer + 1) % 2)) 0 ≤
          dieValueAt (pick2 gameC1.dice (gameC1.currentPlayer % 2)) 0) ∧
      (out = AttackOutcome.attackSuccessful →
        pick2 g'.dice ((gameC1.currentPlayer + 1) % 2) =
          (pick2 gameC1.dice ((gameC1.currentPlayer + 1) % 2)).eraseIdx 0 ∧
        (pick2 g'.dice ((gameC1.currentPlayer + 1) % 2)).length + 1 =
          (pick2 gameC1.dice ((gameC1.currentPlayer + 1) % 2)).length) ∧
      (dieValueAt (pick2 gameC1.dice (gameC1.currentPlayer % 2)) 0 <
          dieValueAt (pick2 gameC1.dice ((gameC1.currentPlayer + 1) % 2)) 0 →
        out = AttackOutcome.attackFailed ∧ g' = gameC1) :=
  c1_power_attack rnds0 gameC1 "ann" 0 0 (by decide) (by decide) (by decide)

/-- C2: for a game whose current player selects two or more in-range attacker
die indices against an in-range defender die index, the skill attack succeeds
exactly when the sum of the selected attacker values equals the defender
value; for any other sum the attack fails and the game state is unchanged. -/
theorem c2_skill_attack (rnds : Nat → Nat × Nat) (g : Game) (pid : String)
    (idxs : List Nat) (dIdx : Nat)
    (hturn : indexOfPlayer g.players pid = (g.currentPlayer : Int))
    (hlen : 2 ≤ idxs.length)
    (hin : ∀ j ∈ idxs, j < (pick2 g.dice (g.currentPlayer % 2)).length)
    (hd : dIdx < (pick2 g.dice ((g.currentPlayer + 1) % 2)).length) :
    ∃ out g', performAttack rnds g pid idxs dIdx = some (out, g') ∧
      (out = AttackOutcome.attackSuccessful ↔
        (idxs.map (dieValueAt (pick2 g.dice (g.currentPlayer % 2)))).sum =
          dieValueAt (pick2 g.dice ((g.currentPlayer + 1) % 2)) dIdx) ∧
      ((idxs.map (dieValueAt (pick2 g.dice (g.currentPlayer % 2)))).sum ≠
          dieValueAt (pick2 g.dice ((g.currentPlayer + 1) % 2)) dIdx →
        out = AttackOutcome.attackFailed ∧ g' = g) := by
  have hs := sumValues_eq_sum (pick2 g.dice (g.currentPlayer % 2)) idxs hin
  have hd' : (pick2 g.dice ((g.currentPlayer + 1) % 2))[dIdx]? =
      some (pick2 g.dice ((g.currentPlayer + 1) % 2))[dIdx] :=
    List.getElem?_eq_getElem hd
  have hdval : dieValueAt (pick2 g.dice ((g.currentPlayer + 1) % 2)) dIdx =
      (pick2 g.dice ((g.currentPlayer + 1) % 2))[dIdx].value := by
    simp [dieValueAt, hd']
  have hres := performAttack_resolve rnds g pid idxs dIdx _ _ hturn hs hd'
  have hone : idxs.length ≠ 1 := by omega
  have hcond : attackSuccessCond idxs
      ((idxs.map (dieValueAt (pick2 g.dice (g.currentPlayer % 2)))).sum)
      (pick2 g.dice ((g.currentPlayer + 1) % 2))[dIdx] =
      decide ((idxs.map (dieValueAt (pick2 g.dice (g.currentPlayer % 2)))).sum =
        (pick2 g.dice ((g.currentPlayer + 1) % 2))[dIdx].value) := by
    unfold attackSuccessCond
    rw [if_neg hone]
  rw [hcond] at hres
  by_cases heq : (idxs.map (dieValueAt (pick2 g.dice (g.currentPlayer % 2)))).sum =
      (pick2 g.dice ((g.currentPlayer + 1) % 2))[dIdx].value
  · rw [if_pos (by simpa using heq)] at hres
    refine ⟨AttackOutcome.attackSuccessful, _, hres, ?_, ?_⟩
    · rw [hdval]; exact ⟨fun _ => heq, fun _ => rfl⟩
    · intro hne; rw [hdval] at hne; exact absurd heq hne
  · rw [if_neg (by simpa using heq)] at hres
    refine ⟨AttackOutcome.attackFailed, g, hres, ?_, ?_⟩
    · rw [hdval]
      exact ⟨fun h => AttackOutcome.noConfusion h, fun h => absurd h heq⟩
    · intro _; exact ⟨rfl, rfl⟩

/-- Witness for C2 at a concrete skill attack. -/
theorem c2_skill_attack_witness :
    ∃ out g', performAttack rnds0 gameC2 "ann" [0, 1] 0 = some (out, g') ∧
      (out = AttackOutcome.attackSuccessful ↔
        ([0, 1].map (dieValueAt (pick2 gameC2.dice (gameC2.currentPlayer % 2)))).sum =
          dieValueAt (pick2 gameC2.dice ((gameC2.currentPlayer + 1) % 2)) 0) ∧
      (([0, 1].map (dieValueAt (pick2 gameC2.dice (gameC2.currentPlayer % 2)))).sum ≠
          dieValueAt (pick2 gameC2.dice ((gameC2.currentPlayer + 1) % 2)) 0 →
        out = AttackOutcome.attackFailed ∧ g' = gameC2) :=
  c2_skill_attack rnds0 gameC2 "ann" [0, 1] 0 (by decide) (by decide) (by decide) (by decide)

/-- C3: every successful attack removes the selected defender die from the
defender pool, appends its size to the attacking player's captured list,
replaces every attacker die used in the attack by a freshly rolled die of the
same size (other attacker dice unchanged), and toggles the current player. -/
theorem c3_success_effects (rnds : Nat → Nat × Nat) (g : Game) (pid : String)
    (idxs : List Nat) (dIdx : Nat) (g' : Game)
    (h : performAttack rnds g pid idxs dIdx = some (AttackOutcome.attackSuccessful, g')) :
    ∃ dDie, (pick2 g.dice ((g.currentPlayer + 1) % 2))[dIdx]? = some dDie ∧
      pick2 g'.captured g.currentPlayer = pick2 g.captured g.currentPlayer ++ [dDie.size] ∧
      pick2 g'.dice ((g.currentPlayer + 1) % 2) =
        (pick2 g.dice ((g.currentPlayer + 1) % 2)).eraseIdx dIdx ∧
      (pick2 g'.dice ((g.currentPlayer + 1) % 2)).length + 1 =
        (pick2 g.dice ((g.currentPlayer + 1) % 2)).length ∧
      (pick2 g'.dice (g.currentPlayer % 2)).length =
        (pick2 g.dice (g.currentPlayer % 2)).length ∧
      (∀ j, j ∉ idxs →
        (pick2 g'.dice (g.currentPlayer % 2))[j]? = (pick2 g.dice (g.currentPlayer % 2))[j]?) ∧
      (∀ j ∈ idxs, ∃ k dj, (pick2 g.dice (g.currentPlayer % 2))[j]? = some dj ∧
        (pick2 g'.dice (g.currentPlayer % 2))[j]? = some (rollDie (rnds k) dj.size)) ∧
      g'.currentPlayer = (g.currentPlayer + 1) % 2 := by
  rcases performAttack_success_inv rnds g pid idxs dIdx g' h with ⟨av, dDie, hs, hd, hcond, hg'⟩
  subst hg'
  have hdlt : dIdx < (pick2 g.dice ((g.currentPlayer + 1) % 2)).length :=
    (List.getElem?_eq_some.mp hd).1
  have hparity : ((g.currentPlayer + 1) % 2) % 2 ≠ (g.currentPlayer % 2) % 2 := by omega
  have hdicedk : pick2 (applyAttackSuccess rnds g idxs dIdx dDie).dice ((g.currentPlayer + 1) % 2) =
      (pick2 g.dice ((g.currentPlayer + 1) % 2)).eraseIdx dIdx := by
    unfold applyAttackSuccess
    exact pick2_set2_of_eq _ _ _ _ rfl
  have hdiceak : pick2 (applyAttackSuccess rnds g idxs dIdx dDie).dice (g.currentPlayer % 2) =
      rerollDice rnds (pick2 g.dice (g.currentPlayer % 2)) idxs 0 := by
    unfold applyAttackSuccess
    rw [pick2_set2_of_ne _ _ _ _ hparity]
    exact pick2_set2_of_eq _ _ _ _ rfl
  refine ⟨dDie, hd, ?_, ?_, ?_, ?_, ?_, ?_, rfl⟩
  · show pick2 (set2 g.captured g.currentPlayer
      (pick2 g.captured g.currentPlayer ++ [dDie.size])) g.currentPlayer = _
    exact pick2_set2_of_eq _ _ _ _ rfl
  · exact hdicedk
  · rw [hdicedk]
    exact List.length_eraseIdx_add_one hdlt
  · rw [hdiceak]
    exact rerollDice_length rnds idxs _ 0
  · intro j hj
    rw [hdiceak]
    exact rerollDice_not_mem rnds idxs _ 0 j hj
  · intro j hj
    rw [hdiceak]
    exact rerollDice_mem rnds idxs _ 0 j hj
      (sumValues_some_lt (pick2 g.dice (g.currentPlayer % 2)) idxs av hs j hj)

/-- Witness for C3 at a concrete successful skill attack. -/
theorem c3_success_effects_witness :
    ∃ dDie, (pick2 gameC3.dice ((gameC3.currentPlayer + 1) % 2))[0]? = some dDie ∧
      pick2 gameC3After.captured gameC3.currentPlayer =
        pick2 gameC3.captured gameC3.currentPlayer ++ [dDie.size] ∧
      pick2 gameC3After.dice ((gameC3.currentPlayer + 1) % 2) =
        (pick2 gameC3.dice ((gameC3.currentPlayer + 1) % 2)).eraseIdx 0 ∧
      (pick2 gameC3After.dice ((gameC3.currentPlayer + 1) % 2)).length + 1 =
        (pick2 gameC3.dice ((gameC3.currentPlayer + 1) % 2)).length ∧
      (pick2 gameC3After.dice (gameC3.currentPlayer % 2)).length =
        (pick2 gameC3.dice (gameC3.currentPlayer % 2)).length ∧
      (∀ j, j ∉ [0, 1] →
        (pick2 gameC3After.dice (gameC3.currentPlayer % 2))[j]? =
          (pick2 gameC3.dice (gameC3.currentPlayer % 2))[j]?) ∧
      (∀ j ∈ [0, 1], ∃ k dj, (pick2 gameC3.dice (gameC3.currentPlayer % 2))[j]? = some dj ∧
        (pick2 gameC3After.dice (gameC3.currentPlayer % 2))[j]? =
          some (rollDie (rnds0 k) dj.size)) ∧
      gameC3After.currentPlayer = (gameC3.currentPlayer + 1) % 2 :=
  c3_success_effects rnds0 gameC3 "ann" [0, 1] 0 gameC3After (by decide)

/-- C4: evaluating the source at a successful attack that empties the
defender pool.  The win-condition block of performAttack is an empty TODO
stub: the game record has no round-over flag and no win counters, the call
returns a plain successful outcome, and the current player still toggles to
the (now dice-less) opponent instead of being frozen. -/
theorem c4_round_end_missing :
    performAttack rnds0 gameC4 "ann" [0] 0 = some (AttackOutcome.attackSuccessful, gameC4After) ∧
    pick2 gameC4After.dice ((gameC4.currentPlayer + 1) % 2) = [] ∧
    gameC4After.currentPlayer ≠ gameC4.currentPlayer := by
  decide

/-- C7: an attack by a caller whose identity does not occupy the slot at the
current player index (including a caller who is not a player of the game at
all) is rejected as not-your-turn and leaves the game unchanged, whatever the
selected indices are. -/
theorem c7_not_your_turn (rnds : Nat → Nat × Nat) (g : Game) (pid : String)
    (idxs : List Nat) (dIdx : Nat)
    (hslot : slotAt g.players g.currentPlayer ≠ some pid) :
    performAttack rnds g pid idxs dIdx = some (AttackOutcome.notYourTurn, g) := by
  have hne : (g.currentPlayer : Int) ≠ indexOfPlayer g.players pid := by
    intro heq
    unfold indexOfPlayer at heq
    unfold slotAt at hslot
    by_cases h1 : g.players.1 = some pid
    · rw [if_pos h1] at heq
      have hc : g.currentPlayer = 0 := by omega
      rw [hc] at hslot
      simp [h1] at hslot
    · rw [if_neg h1] at heq
      by_cases h2 : g.players.2 = some pid
      · rw [if_pos h2] at heq
        have hc : g.currentPlayer = 1 := by omega
        rw [hc] at hslot
        simp [h2] at hslot
      · rw [if_neg h2] at heq
        omega
  unfold performAttack
  rw [if_pos hne]

/-- Witness for C7: an outsider calling attack is rejected without mutation. -/
theorem c7_not_your_turn_witness :
    performAttack rnds0 gameC7 "carol" [0] 0 = some (AttackOutcome.notYourTurn, gameC7) :=
  c7_not_your_turn rnds0 gameC7 "carol" [0] 0 (by decide)

/-- C9: evaluating rollDie at the boundary outcome of the random source.
Math.random() may return exactly 0, and Math.ceil(0 * size) is 0, so the
rolled value 0 escapes the claimed interval from 1 to size; at any positive
draw below 1 the value does lie in the interval, as the sample draws show. -/
theorem c9_roll_zero :
    (rollDie (0, 1) 6).value = 0 ∧
    ¬ 1 ≤ (rollDie (0, 1) 6).value ∧
    (rollDie (0, 1) 6).size = 6 ∧
    (rollDie (1, 2) 6).value = 3 ∧
    (rollDie (1, 6) 6).value = 1 ∧
    (rollDie (5, 6) 6).value = 5 := by
  decide

lemma performAttack_crash (rnds : Nat → Nat × Nat) (g : Game) (pid : String)
    (idxs : List Nat) (dIdx : Nat)
    (hturn : indexOfPlayer g.players pid = (g.currentPlayer : Int))
    (hcrash : sumValues (pick2 g.dice (g.currentPlayer % 2)) idxs = none ∨
      (pick2 g.dice ((g.currentPlayer + 1) % 2))[dIdx]? = none) :
    performAttack rnds g pid idxs dIdx = none := by
  unfold performAttack
  rw [if_neg (fun hne => hne hturn.symm)]
  rcases hcrash with hc | hc
  · rw [hc]
  · rw [hc]
    cases sumValues (pick2 g.dice (g.currentPlayer % 2)) idxs <;> rfl

/-- C10: on a freshly created game the creator is already the current player
and the defender pool is empty, so any attack by the creator whose attacker
indices are in range reaches the read past the end of the empty defender
pool and crashes with an uncaught TypeError (none) instead of returning a
structured error. -/
theorem c10_unguarded_defender_read (rndsA rndsB : Nat → Nat × Nat) (pid : String)
    (idxs : List Nat) (dIdx : Nat)
    (hin : ∀ i ∈ idxs, i < startingSizes.length) :
    performAttack rndsB (createGame rndsA pid) pid idxs dIdx = none := by
  apply performAttack_crash
  · simp [createGame, indexOfPlayer]
  · right
    simp [createGame, pick2]

/-- Witness for C10: the creator attacking right after creation crashes. -/
theorem c10_unguarded_defender_read_witness :
    performAttack rnds0 (createGame rnds0 "ann") "ann" [0] 0 = none :=
  c10_unguarded_defender_read rnds0 rnds0 "ann" [0] 0 (by decide)

/-- C5: every action that returns an error or failure result leaves the game
state unchanged, and the current player index toggles exactly on a
successful attack or pass.  For the attack this covers the unknown-game,
not-your-turn and failed-attack results at the registry level; for the pass
(modelled from the spec, the server source has none) it covers the
not-your-turn and pass-not-allowed results. -/
theorem c5_atomic :
    (∀ (rnds : Nat → Nat × Nat) (reg : String → Option Game) (gid pid : String)
        (idxs : List Nat) (dIdx : Nat) (out : AttackOutcome)
        (reg' : String → Option Game),
      attackAction rnds reg gid pid idxs dIdx = some (out, reg') →
        (out ≠ AttackOutcome.attackSuccessful → ∀ id, reg' id = reg id) ∧
        (out = AttackOutcome.attackSuccessful → ∃ g g', reg gid = some g ∧
          reg' gid = some g' ∧ g'.currentPlayer = (g.currentPlayer + 1) % 2 ∧
          g'.currentPlayer ≠ g.currentPlayer)) ∧
    (∀ (g : Game) (pid : String) (out : PassOutcome) (g' : Game),
      performPass g pid = (out, g') →
        (out ≠ PassOutcome.passed → g' = g) ∧
        (out = PassOutcome.passed → g'.currentPlayer = (g.currentPlayer + 1) % 2 ∧
          g'.currentPlayer ≠ g.currentPlayer ∧ g'.dice = g.dice ∧
          g'.captured = g.captured ∧ g'.players = g.players)) := by
  constructor
  · intro rnds reg gid pid idxs dIdx out reg' h
    unfold attackAction at h
    split at h
    · injection h with h'
      injection h' with h1 h2
      subst h1; subst h2
      constructor
      · intro _ id; rfl
      · intro hout; cases hout
    · rename_i g hreg
      cases hpa : performAttack rnds g pid idxs dIdx with
      | none => rw [hpa] at h; cases h
      | some r =>
        rw [hpa] at h
        cases r with
        | mk ro rg =>
          injection h with h'
          injection h' with h1 h2
          subst h1; subst h2
          constructor
          · intro hout id
            have hrg : rg = g := performAttack_not_success rnds g pid idxs dIdx _ _ hpa hout
            subst hrg
            show (if id = gid then some (ro, rg).2 else reg id) = reg id
            by_cases hid : id = gid
            · rw [if_pos hid, hid, hreg]
            · rw [if_neg hid]
          · intro hout
            subst hout
            rcases performAttack_success_inv rnds g pid idxs dIdx rg hpa with
              ⟨av, dDie, _, _, _, hg'⟩
            refine ⟨g, rg, hreg, if_pos rfl, ?_, ?_⟩
            · rw [hg']; rfl
            · rw [hg']
              show (g.currentPlayer + 1) % 2 ≠ g.currentPlayer
              omega
  · intro g pid out g' h
    unfold performPass at h
    split at h
    · injection h with h1 h2
      subst h1; subst h2
      exact ⟨fun _ => rfl, fun hout => PassOutcome.noConfusion hout⟩
    · split at h
      · injection h with h1 h2
        subst h1; subst h2
        exact ⟨fun _ => rfl, fun hout => PassOutcome.noConfusion hout⟩
      · injection h with h1 h2
        subst h1; subst h2
        refine ⟨fun hout => absurd rfl hout, fun _ => ⟨rfl, ?_, rfl, rfl, rfl⟩⟩
        show (g.currentPlayer + 1) % 2 ≠ g.currentPlayer
        omega

/-- Witness for C5: a concrete failed attack leaves the registry entry
unchanged, and a concrete legal pass toggles only the current player. -/
theorem c5_atomic_witness :
    regC5After "g1" = regC5 "g1" ∧
    (gameC5passAfter.currentPlayer = (gameC5pass.currentPlayer + 1) % 2 ∧
      gameC5passAfter.currentPlayer ≠ gameC5pass.currentPlayer ∧
      gameC5passAfter.dice = gameC5pass.dice ∧
      gameC5passAfter.captured = gameC5pass.captured ∧
      gameC5passAfter.players = gameC5pass.players) :=
  ⟨(c5_atomic.1 rnds0 regC5 "g1" "ann" [0] 0 AttackOutcome.attackFailed regC5After rfl).1
      (by decide) "g1",
    (c5_atomic.2 gameC5pass "pam" PassOutcome.passed gameC5passAfter (by decide)).2 rfl⟩

/-- C6 counterexample: the selection [0, 0] contains a duplicate index, yet
the attack is not rejected with a DuplicateDieIndex error; the die value is
counted twice, the sum 3 + 3 matches the defender value 6, and the attack
succeeds and mutates the game. -/
theorem c6_counterexample :
    performAttack rnds0 gameC6 "ann" [0, 0] 0 =
      some (AttackOutcome.attackSuccessful, gameC6After) := by
  decide

/-- C6 amended: the source performs no input validation.  An empty selection
is resolved as a skill attack of sum 0 and fails against any defender die of
positive value, leaving the game unchanged; a selection with an out-of-range
attacker index, or an out-of-range defender index, crashes with an uncaught
TypeError (none) instead of returning a structured error; and a duplicated
in-range index is accepted, its die value counted once per occurrence. -/
theorem c6_amended :
    (∀ (rnds : Nat → Nat × Nat) (g : Game) (pid : String) (dIdx : Nat) (dDie : Die),
      indexOfPlayer g.players pid = (g.currentPlayer : Int) →
      (pick2 g.dice ((g.currentPlayer + 1) % 2))[dIdx]? = some dDie →
      1 ≤ dDie.value →
      performAttack rnds g pid [] dIdx = some (AttackOutcome.attackFailed, g)) ∧
    (∀ (rnds : Nat → Nat × Nat) (g : Game) (pid : String) (idxs : List Nat) (dIdx : Nat),
      indexOfPlayer g.players pid = (g.currentPlayer : Int) →
      (∃ i ∈ idxs, (pick2 g.dice (g.currentPlayer % 2)).length ≤ i) →
      performAttack rnds g pid idxs dIdx = none) ∧
    (∀ (rnds : Nat → Nat × Nat) (g : Game) (pid : String) (idxs : List Nat) (dIdx : Nat),
      indexOfPlayer g.players pid = (g.currentPlayer : Int) →
      (pick2 g.dice ((g.currentPlayer + 1) % 2)).length ≤ dIdx →
      performAttack rnds g pid idxs dIdx = none) ∧
    (∀ (rnds : Nat → Nat × Nat) (g : Game) (pid : String) (i dIdx : Nat) (ai dDie : Die),
      indexOfPlayer g.players pid = (g.currentPlayer : Int) →
      (pick2 g.dice (g.currentPlayer % 2))[i]? = some ai →
      (pick2 g.dice ((g.currentPlayer + 1) % 2))[dIdx]? = some dDie →
      ai.value + ai.value = dDie.value →
      ∃ g', performAttack rnds g pid [i, i] dIdx =
        some (AttackOutcome.attackSuccessful, g')) := by
  refine ⟨?_, ?_, ?_, ?_⟩
  · intro rnds g pid dIdx dDie hturn hd hpos
    have hs : sumValues (pick2 g.dice (g.currentPlayer % 2)) [] = some 0 := rfl
    have hres := performAttack_resolve rnds g pid [] dIdx 0 dDie hturn hs hd
    rw [hres]
    have hcond : attackSuccessCond [] 0 dDie = false := by
      unfold attackSuccessCond
      simp only [List.length_nil]
      rw [if_neg (by omega)]
      simp only [decide_eq_false_iff_not]
      omega
    rw [hcond]
    rfl
  · intro rnds g pid idxs dIdx hturn hoor
    exact performAttack_crash rnds g pid idxs dIdx hturn
      (Or.inl (sumValues_none _ idxs hoor))
  · intro rnds g pid idxs dIdx hturn hoor
    exact performAttack_crash rnds g pid idxs dIdx hturn
      (Or.inr (List.getElem?_eq_none hoor))
  · intro rnds g pid i dIdx ai dDie hturn hai hd hsum
    have hs : sumValues (pick2 g.dice (g.currentPlayer % 2)) [i, i] =
        some (ai.value + (ai.value + 0)) := by
      unfold sumValues
      rw [hai]
      unfold sumValues
      rw [hai]
      rfl
    have hres := performAttack_resolve rnds g pid [i, i] dIdx _ dDie hturn hs hd
    rw [hres]
    have hcond : attackSuccessCond [i, i] (ai.value + (ai.value + 0)) dDie = true := by
      unfold attackSuccessCond
      rw [if_neg (by simp)]
      simp only [decide_eq_true_eq]
      omega
    rw [hcond]
    exact ⟨_, rfl⟩

/-- Witness for the amended C6 at concrete inputs: an empty selection fails
without mutation, out-of-range indices on either side crash, and the
duplicate selection succeeds. -/
theorem c6_amended_witness :
    performAttack rnds0 gameC6 "ann" [] 0 = some (AttackOutcome.attackFailed, gameC6) ∧
    performAttack rnds0 gameC6 "ann" [5] 0 = none ∧
    performAttack rnds0 gameC6 "ann" [0] 7 = none ∧
    ∃ g', performAttack rnds0 gameC6 "ann" [0, 0] 0 =
      some (AttackOutcome.attackSuccessful, g') :=
  ⟨c6_amended.1 rnds0 gameC6 "ann" 0 { size := 8, value := 6 } (by decide) (by decide)
      (by decide),
    c6_amended.2.1 rnds0 gameC6 "ann" [5] 0 (by decide)
      ⟨5, by decide, by decide⟩,
    c6_amended.2.2.1 rnds0 gameC6 "ann" [0] 7 (by decide) (by decide),
    c6_amended.2.2.2 rnds0 gameC6 "ann" 0 0 { size := 6, value := 3 }
      { size := 8, value := 6 } (by decide) (by decide) (by decide) (by decide)⟩

/-- C8: the pass action (modelled from the spec).  When the current player
has no legal attack, pass succeeds and only toggles the current player index,
keeping both pools and both captured lists (and with them anything else in
the game record) unchanged; when a legal attack exists, pass fails with
pass-not-allowed and leaves the game unchanged.  The final conjunct relates
the executable legal-attack test to its set-theoretic reading. -/
theorem c8_pass (g : Game) (pid : String)
    (hturn : indexOfPlayer g.players pid = (g.currentPlayer : Int)) :
    (existsLegalAttack (pick2 g.dice (g.currentPlayer % 2))
        (pick2 g.dice ((g.currentPlayer + 1) % 2)) = false →
      performPass g pid = (PassOutcome.passed,
        { g with currentPlayer := (g.currentPlayer + 1) % 2 })) ∧
    (existsLegalAttack (pick2 g.dice (g.currentPlayer % 2))
        (pick2 g.dice ((g.currentPlayer + 1) % 2)) = true →
      performPass g pid = (PassOutcome.passNotAllowed, g)) ∧
    (∀ attackerDice defenderDice : List Die,
      existsLegalAttack attackerDice defenderDice = true ↔
        ∃ d ∈ defenderDice, (∃ a ∈ attackerDice, d.value ≤ a.value) ∨
          ∃ s : List Die, s.Sublist attackerDice ∧ 2 ≤ s.length ∧
            (s.map Die.value).sum = d.value) := by
  refine ⟨?_, ?_, ?_⟩
  · intro hf
    unfold performPass
    rw [if_neg (fun hne => hne hturn.symm), if_neg (by simp [hf])]
  · intro ht
    unfold performPass
    rw [if_neg (fun hne => hne hturn.symm), if_pos (by simp [ht])]
  · intro attackerDice defenderDice
    unfold existsLegalAttack
    simp only [List.any_eq_true, Bool.or_eq_true, Bool.and_eq_true,
      decide_eq_true_eq, List.mem_sublists]

/-- Witness for C8: the legal pass toggles the turn only, the illegal pass is
rejected, and the legal-attack test agrees with its set-theoretic reading on
a concrete pool pair. -/
theorem c8_pass_witness :
    performPass gameC8 "pam" = (PassOutcome.passed, gameC8After) ∧
    performPass gameC8b "pam" = (PassOutcome.passNotAllowed, gameC8b) ∧
    (existsLegalAttack (pick2 gameC8b.dice 0) (pick2 gameC8b.dice 1) = true ↔
      ∃ d ∈ pick2 gameC8b.dice 1, (∃ a ∈ pick2 gameC8b.dice 0, d.value ≤ a.value) ∨
        ∃ s : List Die, s.Sublist (pick2 gameC8b.dice 0) ∧ 2 ≤ s.length ∧
          (s.map Die.value).sum = d.value) :=
  ⟨(c8_pass gameC8 "pam" (by decide)).1 (by decide),
    (c8_pass gameC8b "pam" (by decide)).2.1 (by decide),
    (c8_pass gameC8b "pam" (by decide)).2.2 (pick2 gameC8b.dice 0) (pick2 gameC8b.dice 1)⟩
